import Mathlib

/-!
Verification of the YAVS on-disk vector-store format library (`yavs.py`)
and its demonstration driver (`example.py`).

The file contents are modelled as `List Nat` (one entry per byte).  Python
operations that open, write and close the file are modelled by explicit
state passing: each library operation takes the current file contents and
returns the new contents together with an optional error, mirroring the
exact order of writes and the exact point at which each exception is
raised in the source.  Multi-byte integers are little-endian byte lists;
`struct.pack`/`struct.unpack` failures (out-of-range argument, short read)
are modelled as errors raised at the corresponding program point.
-/

namespace Yavs

/-- `k`-byte little-endian encoding of a natural number (the byte list
`struct.pack` produces for an in-range value). -/
def toLE : Nat → Nat → List Nat
  | 0, _ => []
  | k + 1, n => n % 256 :: toLE k (n / 256)

/-- Little-endian decoding of a byte list (what `struct.unpack` computes). -/
def fromLE : List Nat → Nat
  | [] => 0
  | b :: bs => b + 256 * fromLE bs

theorem length_toLE (k n : Nat) : (toLE k n).length = k := by
  induction k generalizing n with
  | zero => rfl
  | succ k ih => simp [toLE, ih]

theorem fromLE_toLE (k n : Nat) : fromLE (toLE k n) = n % 256 ^ k := by
  induction k generalizing n with
  | zero => simp [toLE, fromLE, Nat.mod_one]
  | succ k ih =>
    simp only [toLE, fromLE, ih]
    rw [pow_succ, mul_comm (256 ^ k) 256, Nat.mod_mul]

theorem fromLE_toLE_of_lt {k n : Nat} (h : n < 256 ^ k) :
    fromLE (toLE k n) = n := by
  rw [fromLE_toLE, Nat.mod_eq_of_lt h]

/-- The 4 magic bytes `b"YAVS"`. -/
def MAGIC : List Nat := [0x59, 0x41, 0x56, 0x53]

/-- `VERSION = 1`. -/
def VERSION : Nat := 1

/-- `RESERVED_SIZE = 16`. -/
def RESERVED_SIZE : Nat := 16

/-- `HEADER_SIZE = 4 + 4 + 8 + 4 + RESERVED_SIZE`. -/
def HEADER_SIZE : Nat := 4 + 4 + 8 + 4 + RESERVED_SIZE

/-- The errors the library raises, one constructor per raise site.
`invalidFormat`, `versionMismatch`, `dimensionMismatch` and
`invalidRecordId` are the `ValueError`s raised explicitly in the source;
the remaining constructors are the `struct.error`s that `struct.pack` /
`struct.unpack` raise at the corresponding call sites (out-of-range
integer argument, or a read shorter than the format requires). -/
inductive PyError
  | invalidFormat
  | versionMismatch (expected found : Nat)
  | dimensionMismatch (expected got : Nat)
  | invalidRecordId
  | headerStructError
  | createPackError
  | embeddingPackError
  | metaLenPackError
  | countPackError
deriving DecidableEq, Repr

/-- `struct.pack("<I", v)`: 4 little-endian bytes, raising for a value
outside `[0, 2^32)` (Python ints are signed and unbounded; for
non-negative `v` the bound is checked on `v.toNat`). -/
def packU32 (v : Int) : Option (List Nat) :=
  if 0 ≤ v ∧ v.toNat < 2 ^ 32 then some (toLE 4 v.toNat) else none

/-- `struct.pack("<Q", v)`: 8 little-endian bytes, raising outside `[0, 2^64)`. -/
def packU64 (v : Int) : Option (List Nat) :=
  if 0 ≤ v ∧ v.toNat < 2 ^ 64 then some (toLE 8 v.toNat) else none

/-- `struct.unpack("<I", bs)` where `bs` came from `f.read(4)`: fails
unless exactly 4 bytes were available. -/
def unpackU32 (bs : List Nat) : Option Nat :=
  if bs.length = 4 then some (fromLE bs) else none

/-- `struct.unpack("<Q", bs)` for `f.read(8)`. -/
def unpackU64 (bs : List Nat) : Option Nat :=
  if bs.length = 8 then some (fromLE bs) else none

/-- `create(filename, dim)`.  Opens the path for truncating write and
writes magic, version, record count 0, the dimension, and the reserved
zeros, in that order.  `struct.pack("<I", dim)` raises for `dim` outside
`[0, 2^32)`; the writes made before that point remain, so the result is
the file contents after the call together with the error, if any. -/
def create (dim : Int) : List Nat × Option PyError :=
  let written := MAGIC ++ toLE 4 VERSION ++ toLE 8 0
  match packU32 dim with
  | none => (written, some .createPackError)
  | some dimBytes =>
      (written ++ dimBytes ++ List.replicate RESERVED_SIZE 0, none)

/-- `get_header_info(filename)`.  Read-only: validates the magic, then
unpacks and validates the version, then unpacks the record count and the
dimension.  `f.read(k)` returns at most `k` bytes; a short read makes the
magic comparison fail (for the magic) or `struct.unpack` raise (for the
integer fields). -/
def get_header_info (file : List Nat) : Except PyError (Nat × Nat) :=
  if file.take 4 ≠ MAGIC then .error .invalidFormat
  else
    match unpackU32 ((file.drop 4).take 4) with
    | none => .error .headerStructError
    | some version =>
      if version ≠ VERSION then .error (.versionMismatch VERSION version)
      else
        match unpackU64 ((file.drop 8).take 8) with
        | none => .error .headerStructError
        | some n_records =>
          match unpackU32 ((file.drop 16).take 4) with
          | none => .error .headerStructError
          | some dim => .ok (n_records, dim)

/-- A Python value passed as one component of an embedding: either a
number that `struct.pack("<f", x)` serializes (abstracted as the four
bytes of its little-endian IEEE-754 float32 encoding), or a value the
pack rejects (a non-float, or a float too large for the f format). -/
inductive PyFloat
  | packable (b0 b1 b2 b3 : Nat)
  | unpackable
deriving DecidableEq, Repr

/-- The four bytes `struct.pack("<f", x)` writes, or `none` if it raises. -/
def PyFloat.packBytes : PyFloat → Option (List Nat)
  | .packable b0 b1 b2 b3 => some [b0, b1, b2, b3]
  | .unpackable => none

/-- `struct.pack("<" + "f" * dim, *embedding)`: the concatenation of the
per-component encodings, raising if any component fails to pack. -/
def packEmbedding : List PyFloat → Option (List Nat)
  | [] => some []
  | v :: vs =>
    match v.packBytes, packEmbedding vs with
    | some b, some bs => some (b ++ bs)
    | _, _ => none

/-- The `metadata` argument of `insert`: either a bytes-like value or a
Python `str` (the two call shapes the source supports, via the
`TypeError` fallback). -/
inductive PyMetadata
  | bytes (bs : List Nat)
  | text (s : String)

/-- Python `len(metadata)`: byte count for bytes, code-point count for a
`str`. -/
def PyMetadata.len : PyMetadata → Nat
  | .bytes bs => bs.length
  | .text s => s.length

/-- UTF-8 encoding of one code point, as `str.encode("utf-8")` produces
it (standard UTF-8; modelled here because `str.encode` is Python library
behaviour, not repository code). -/
def utf8EncodeChar (c : Char) : List Nat :=
  let n := c.toNat
  if n < 0x80 then [n]
  else if n < 0x800 then [0xC0 + n / 64, 0x80 + n % 64]
  else if n < 0x10000 then
    [0xE0 + n / 4096, 0x80 + n / 64 % 64, 0x80 + n % 64]
  else
    [0xF0 + n / 262144, 0x80 + n / 4096 % 64, 0x80 + n / 64 % 64,
      0x80 + n % 64]

/-- `s.encode("utf-8")` for a whole string. -/
def utf8Bytes (s : String) : List Nat :=
  (s.data.map utf8EncodeChar).flatten

/-- The bytes `insert` actually writes for the metadata: the raw bytes
when `f.write(metadata)` succeeds, else (on the `TypeError` a `str`
argument raises against a binary file) the UTF-8 encoding. -/
def PyMetadata.writtenBytes : PyMetadata → List Nat
  | .bytes bs => bs
  | .text s => utf8Bytes s

/-- An in-place `f.write(bs)` after `f.seek(pos)` on a file opened
`"r+b"`: overwrites `bs.length` bytes starting at `pos`. -/
def writeAt (file : List Nat) (pos : Nat) (bs : List Nat) : List Nat :=
  file.take pos ++ bs ++ file.drop (pos + bs.length)

/-- `insert(filename, embedding, metadata, record_id=None)`.

`genId` stands for the 16 random bytes `uuid.uuid4().bytes` would produce
on this call (the random source is passed in explicitly so the function
stays pure; the Python library guarantees it returns exactly 16 bytes).

The steps mirror the source in order: read the header; check the
embedding length against the stored dimension; substitute the generated
id when `record_id` is `None`; check the (possibly generated) id is 16
bytes; pack the embedding; then, with the file open in append mode, write
id, embedding bytes, packed metadata length and metadata bytes; finally
reopen the file, seek to offset 8 and overwrite the record count with the
previous count plus one.  A failure leaves exactly the bytes written
before the raise. -/
def insert (genId : List Nat) (file : List Nat) (embedding : List PyFloat)
    (metadata : PyMetadata) (record_id : Option (List Nat)) :
    List Nat × Option PyError :=
  match get_header_info file with
  | .error e => (file, some e)
  | .ok (n_records, dim) =>
    if embedding.length ≠ dim then
      (file, some (.dimensionMismatch dim embedding.length))
    else if (record_id.getD genId).length ≠ 16 then
      (file, some .invalidRecordId)
    else
      match packEmbedding embedding with
      | none => (file, some .embeddingPackError)
      | some embedding_bytes =>
        match packU32 (metadata.len : Int) with
        | none =>
            (file ++ record_id.getD genId ++ embedding_bytes,
              some .metaLenPackError)
        | some lenBytes =>
          match packU64 ((n_records : Int) + 1) with
          | none =>
              (file ++ record_id.getD genId ++ embedding_bytes ++ lenBytes
                ++ metadata.writtenBytes, some .countPackError)
          | some countBytes =>
              (writeAt
                (file ++ record_id.getD genId ++ embedding_bytes ++ lenBytes
                  ++ metadata.writtenBytes)
                8 countBytes, none)

/-- Reading the header succeeds exactly when the file starts with the
magic bytes, is at least 20 bytes long, and its version field decodes to
`VERSION`; the returned pair decodes the count and dimension fields. -/
theorem get_header_info_ok_iff {file : List Nat} {n d : Nat} :
    get_header_info file = Except.ok (n, d) ↔
      file.take 4 = MAGIC ∧ 20 ≤ file.length ∧
      fromLE ((file.drop 4).take 4) = VERSION ∧
      fromLE ((file.drop 8).take 8) = n ∧
      fromLE ((file.drop 16).take 4) = d := by
  by_cases hm : file.take 4 = MAGIC
  · by_cases h8 : 8 ≤ file.length
    · have e4 : ((file.drop 4).take 4).length = 4 := by
        simp only [List.length_take, List.length_drop]; omega
      by_cases hv : fromLE ((file.drop 4).take 4) = VERSION
      · by_cases h16 : 16 ≤ file.length
        · have e8 : ((file.drop 8).take 8).length = 8 := by
            simp only [List.length_take, List.length_drop]; omega
          by_cases h20 : 20 ≤ file.length
          · have e16 : ((file.drop 16).take 4).length = 4 := by
              simp only [List.length_take, List.length_drop]; omega
            simp [get_header_info, unpackU32, unpackU64, hm, hv, e4, e8,
              e16, h20]
          · have c16 : ¬ 4 ≤ file.length - 16 := by omega
            exact iff_of_false
              (by simp [get_header_info, unpackU32, unpackU64, hm, hv, e4,
                e8, c16])
              (by rintro ⟨-, h, -⟩; omega)
        · have c8 : ¬ 8 ≤ file.length - 8 := by omega
          exact iff_of_false
            (by simp [get_header_info, unpackU32, unpackU64, hm, hv, e4,
              c8])
            (by rintro ⟨-, h, -⟩; omega)
      · exact iff_of_false
          (by simp [get_header_info, unpackU32, unpackU64, hm, hv, e4])
          (by rintro ⟨-, -, h, -⟩; exact hv h)
    · have c4 : ¬ 4 ≤ file.length - 4 := by omega
      exact iff_of_false
        (by simp [get_header_info, unpackU32, unpackU64, hm, c4])
        (by rintro ⟨-, h, -⟩; omega)
  · exact iff_of_false (by simp [get_header_info, hm])
      (by rintro ⟨h, -⟩; exact hm h)

/-- For a dimension in `[0, 2^32)` the creation writes the full 36-byte
header. -/
theorem create_ok {dim : Int} (h0 : 0 ≤ dim) (h1 : dim < 2 ^ 32) :
    create dim =
      (MAGIC ++ toLE 4 VERSION ++ toLE 8 0 ++ toLE 4 dim.toNat ++
        List.replicate RESERVED_SIZE 0, none) := by
  have h1n : dim.toNat < 2 ^ 32 := by
    have h1c := h1
    norm_num at h1c ⊢
    omega
  have h1i : dim < 4294967296 := by
    have h1c := h1
    norm_num at h1c
    exact h1c
  simp [create, packU32, h0, h1n, h1i]

/-- Reading back the header of a freshly created store yields count `0`
and the stored dimension. -/
theorem get_header_info_create {dim : Int} (h0 : 0 ≤ dim)
    (h1 : dim < 2 ^ 32) :
    get_header_info (create dim).1 = Except.ok (0, dim.toNat) := by
  have hlt : dim.toNat < 256 ^ 4 := by
    have h256 : (256 : Int) ^ 4 = 2 ^ 32 := by norm_num
    omega
  rw [create_ok h0 h1]
  have base : get_header_info (MAGIC ++ toLE 4 VERSION ++ toLE 8 0 ++
        toLE 4 dim.toNat ++ List.replicate RESERVED_SIZE 0) =
      Except.ok (fromLE (toLE 8 0), fromLE (toLE 4 dim.toNat)) := rfl
  rw [base, fromLE_toLE_of_lt (show (0 : Nat) < 256 ^ 8 by norm_num),
    fromLE_toLE_of_lt hlt]

/-- A successful `insert` call decomposes as: the store header was
readable, the embedding length matched the dimension, the incremented
count still fits `struct.pack("<Q")`, and the new file is the old one
with the count field overwritten at offset 8 and some record bytes
appended at the end. -/
theorem insert_ok_spec {genId file : List Nat} {emb : List PyFloat}
    {md : PyMetadata} {rid : Option (List Nat)} {f₁ : List Nat}
    (h : insert genId file emb md rid = (f₁, none)) :
    ∃ n d rec, get_header_info file = Except.ok (n, d) ∧ emb.length = d ∧
      n + 1 < 2 ^ 64 ∧
      f₁ = file.take 8 ++ toLE 8 (n + 1) ++ file.drop 16 ++ rec := by
  unfold insert at h
  split at h
  · simp at h
  next n_records dim heq =>
    split at h
    · simp at h
    next hdim =>
      split at h
      · simp at h
      next hrid =>
        split at h
        · simp at h
        next eb hpack =>
          split at h
          · simp at h
          next lenBytes hlen =>
            split at h
            · simp at h
            next countBytes hcount =>
              have h1 : writeAt
                  (file ++ rid.getD genId ++ eb ++ lenBytes ++
                    md.writtenBytes) 8 countBytes = f₁ :=
                (Prod.mk.injEq _ _ _ _ ▸ h).1
              have hl := (get_header_info_ok_iff.mp heq).2.1
              rw [packU64] at hcount
              split at hcount
              next hrange =>
                have htn : ((n_records : Int) + 1).toNat = n_records + 1 := by
                  omega
                have hc : countBytes = toLE 8 (n_records + 1) := by
                  simp only [Option.some.injEq] at hcount
                  rw [htn] at hcount
                  exact hcount.symm
                have hbound : n_records + 1 < 2 ^ 64 := htn ▸ hrange.2
                refine ⟨n_records, dim, rid.getD genId ++ (eb ++
                  (lenBytes ++ md.writtenBytes)), heq, not_not.mp hdim,
                  hbound, ?_⟩
                rw [← h1, hc]
                unfold writeAt
                have hassoc :
                    file ++ rid.getD genId ++ eb ++ lenBytes ++
                      md.writtenBytes =
                    file ++ (rid.getD genId ++ (eb ++
                      (lenBytes ++ md.writtenBytes))) := by
                  simp [List.append_assoc]
                rw [hassoc, length_toLE,
                    List.take_append_of_le_length (by omega),
                    List.drop_append_eq_append_drop,
                    Nat.sub_eq_zero_of_le (by omega : 8 + 8 ≤ file.length),
                    List.drop_zero]
                simp [List.append_assoc]
              next =>
                simp at hcount

theorem take_drop_take {k m K : Nat} (l : List Nat) (h : m + k ≤ K) :
    ((l.take K).drop m).take k = (l.drop m).take k := by
  rw [List.drop_take, List.take_take]
  congr 1
  omega

/-- After overwriting the count field with `n + 1` and appending record
bytes, the header reads back with count `n + 1` and the same dimension. -/
theorem get_header_info_after {file : List Nat} {n d : Nat}
    (hh : get_header_info file = Except.ok (n, d)) (hlt : n + 1 < 2 ^ 64)
    (rec : List Nat) :
    get_header_info (file.take 8 ++ toLE 8 (n + 1) ++ file.drop 16 ++ rec) =
      Except.ok (n + 1, d) := by
  obtain ⟨hm, hl, hv, hn, hd⟩ := get_header_info_ok_iff.mp hh
  have hA : (file.take 8).length = 8 := by
    simp only [List.length_take]
    omega
  have hAC : (file.take 8 ++ toLE 8 (n + 1)).length = 16 := by
    simp only [List.length_append, List.length_take, length_toLE]
    omega
  have hshape : file.take 8 ++ toLE 8 (n + 1) ++ file.drop 16 ++ rec =
      file.take 8 ++ (toLE 8 (n + 1) ++ (file.drop 16 ++ rec)) := by
    simp [List.append_assoc]
  have hdroplen : 4 ≤ ((file.take 8).drop 4).length := by
    simp only [List.length_drop, List.length_take]
    omega
  apply get_header_info_ok_iff.mpr
  refine ⟨?_, ?_, ?_, ?_, ?_⟩
  · rw [hshape, List.take_append_of_le_length (by omega), List.take_take]
    rw [show min 4 8 = 4 from rfl]
    exact hm
  · simp only [List.length_append, List.length_take, List.length_drop,
      length_toLE]
    omega
  · rw [hshape, List.drop_append_eq_append_drop,
      Nat.sub_eq_zero_of_le (by omega : (4 : Nat) ≤ (file.take 8).length),
      List.drop_zero, List.take_append_of_le_length hdroplen,
      take_drop_take file (by omega : 4 + 4 ≤ 8)]
    exact hv
  · rw [hshape, List.drop_left' hA,
      List.take_append_of_le_length (le_of_eq (length_toLE 8 (n + 1)).symm),
      List.take_of_length_le (le_of_eq (length_toLE 8 (n + 1))),
      fromLE_toLE_of_lt (show n + 1 < 256 ^ 8 by norm_num at hlt ⊢; omega)]
  · rw [List.append_assoc (file.take 8 ++ toLE 8 (n + 1)) (file.drop 16) rec,
      List.drop_left' hAC,
      List.take_append_of_le_length (by simp only [List.length_drop]; omega)]
    exact hd

/-- Exact result of a successful `insert`: count field overwritten with
`n + 1`, and the record `id ++ embedding bytes ++ length field ++
metadata bytes` appended at the end. -/
theorem insert_ok_eq {genId file : List Nat} {emb : List PyFloat}
    {md : PyMetadata} {rid : Option (List Nat)} {n d : Nat} {eb : List Nat}
    (hhdr : get_header_info file = Except.ok (n, d))
    (hdim : emb.length = d)
    (hr : (rid.getD genId).length = 16)
    (hpe : packEmbedding emb = some eb)
    (hml : md.len < 2 ^ 32)
    (hlt : n + 1 < 2 ^ 64) :
    insert genId file emb md rid =
      (file.take 8 ++ toLE 8 (n + 1) ++ file.drop 16 ++
        (rid.getD genId ++ eb ++ toLE 4 md.len ++ md.writtenBytes),
       none) := by
  have h20 := (get_header_info_ok_iff.mp hhdr).2.1
  have hpml : packU32 ((md.len : Int)) = some (toLE 4 md.len) := by
    have hml2 : md.len < 4294967296 := by norm_num at hml; exact hml
    simp [packU32, hml2]
  have hpcnt : packU64 ((n : Int) + 1) = some (toLE 8 (n + 1)) := by
    have ht : (((n : Nat) : Int) + 1).toNat = n + 1 := by omega
    have hnn : (0 : Int) ≤ ((n : Nat) : Int) + 1 := by positivity
    have hlt2 : n < 18446744073709551615 := by norm_num at hlt; omega
    simp [packU64, ht, hnn, hlt2]
  have hdim' : ¬ emb.length ≠ d := not_not_intro hdim
  have hr' : ¬ (rid.getD genId).length ≠ 16 := not_not_intro hr
  simp only [insert, hhdr, hpe, hpml, hpcnt, if_neg hdim', if_neg hr']
  unfold writeAt
  rw [length_toLE]
  have hassoc :
      file ++ rid.getD genId ++ eb ++ toLE 4 md.len ++ md.writtenBytes =
      file ++ (rid.getD genId ++ eb ++ toLE 4 md.len ++ md.writtenBytes) := by
    simp [List.append_assoc]
  rw [hassoc, List.take_append_of_le_length (by omega),
    List.drop_append_eq_append_drop,
    Nat.sub_eq_zero_of_le (by omega : 8 + 8 ≤ file.length), List.drop_zero]
  simp [List.append_assoc]

/-- The arguments of one `insert` call, together with the 16 random bytes
`uuid.uuid4().bytes` would produce during that call. -/
structure InsertArgs where
  genId : List Nat
  embedding : List PyFloat
  metadata : PyMetadata
  record_id : Option (List Nat)

/-- Run a sequence of `insert` calls against the file, returning the final
file contents if every call succeeds and `none` if any call fails. -/
def runInserts (file : List Nat) : List InsertArgs → Option (List Nat)
  | [] => some file
  | a :: rest =>
    match insert a.genId file a.embedding a.metadata a.record_id with
    | (f₂, none) => runInserts f₂ rest
    | (_, some _) => none

/-- `N` successful inserts increase the header's record count by `N` and
keep the dimension. -/
theorem runInserts_header (args : List InsertArgs) :
    ∀ (file f₂ : List Nat) (n d : Nat),
      get_header_info file = Except.ok (n, d) →
      runInserts file args = some f₂ →
      get_header_info f₂ = Except.ok (n + args.length, d) := by
  induction args with
  | nil =>
    intro file f₂ n d hh hr
    simp only [runInserts, Option.some.injEq] at hr
    subst hr
    simpa using hh
  | cons a rest ih =>
    intro file f₂ n d hh hr
    simp only [runInserts] at hr
    rcases hins : insert a.genId file a.embedding a.metadata a.record_id
      with ⟨f1, err⟩
    rw [hins] at hr
    cases err with
    | some e => simp at hr
    | none =>
      obtain ⟨n', d', rec, hh', hlen, hlt, hshape⟩ := insert_ok_spec hins
      rw [hh] at hh'
      have hnd : n' = n ∧ d' = d := by
        have hsy := hh'.symm
        simp only [Except.ok.injEq, Prod.mk.injEq] at hsy
        exact hsy
      rw [hnd.1] at hshape hlt
      have hf1 : get_header_info f1 = Except.ok (n + 1, d) := by
        rw [hshape]
        exact get_header_info_after hh hlt rec
      have := ih f1 f₂ (n + 1) d hf1 hr
      rw [this, List.length_cons]
      congr 2
      omega

/-- Any run of successful inserts leaves the first 8 bytes (magic and
version) and the bytes from offset 16 up to the original end of file
(dimension, reserved region, and all previously written records)
unchanged,
and never shrinks the file. -/
theorem runInserts_preserves (args : List InsertArgs) :
    ∀ (file f₂ : List Nat), 20 ≤ file.length →
      runInserts file args = some f₂ →
      f₂.take 8 = file.take 8 ∧
      (f₂.drop 16).take (file.length - 16) = file.drop 16 ∧
      file.length ≤ f₂.length := by
  induction args with
  | nil =>
    intro file f₂ h20 hr
    simp only [runInserts, Option.some.injEq] at hr
    subst hr
    refine ⟨rfl, ?_, le_refl _⟩
    exact List.take_of_length_le (le_of_eq (List.length_drop 16 file))
  | cons a rest ih =>
    intro file f₂ h20 hr
    simp only [runInserts] at hr
    rcases hins : insert a.genId file a.embedding a.metadata a.record_id
      with ⟨f1, err⟩
    rw [hins] at hr
    cases err with
    | some e => simp at hr
    | none =>
      obtain ⟨n, d, rec, hh, hlen, hlt, hshape⟩ := insert_ok_spec hins
      have hA : (file.take 8).length = 8 := by
        simp only [List.length_take]
        omega
      have hAC : (file.take 8 ++ toLE 8 (n + 1)).length = 16 := by
        simp only [List.length_append, List.length_take, length_toLE]
        omega
      have hstep8 : f1.take 8 = file.take 8 := by
        rw [hshape, List.append_assoc, List.append_assoc,
          List.take_left' hA]
      have hstep16 : f1.drop 16 = file.drop 16 ++ rec := by
        rw [hshape, List.append_assoc (file.take 8 ++ toLE 8 (n + 1)),
          List.drop_left' hAC]
      have hsteplen : file.length ≤ f1.length := by
        rw [hshape]
        simp only [List.length_append, List.length_take, List.length_drop,
          length_toLE]
        omega
      have h20f1 : 20 ≤ f1.length := le_trans h20 hsteplen
      obtain ⟨ih8, ih16, ihlen⟩ := ih f1 f₂ h20f1 hr
      refine ⟨ih8.trans hstep8, ?_, le_trans hsteplen ihlen⟩
      have hmin : file.length - 16 = min (file.length - 16)
          (f1.length - 16) := by omega
      have hrecle : file.length - 16 ≤ (file.drop 16).length :=
        le_of_eq (List.length_drop 16 file).symm
      rw [hmin, ← List.take_take, ih16, hstep16,
        List.take_append_of_le_length hrecle]
      exact List.take_of_length_le (le_of_eq (List.length_drop 16 file))

/-- A successful `create` implies the dimension was in `struct.pack`'s
`<I` range. -/
theorem create_ok_inv {dim : Int} (h : (create dim).2 = none) :
    0 ≤ dim ∧ dim.toNat < 2 ^ 32 := by
  by_contra hc
  unfold create packU32 at h
  rw [if_neg hc] at h
  simp at h

/-- Field-level view of a successful insert: the first 8 bytes are
unchanged, the count field now holds `n + 1`, all bytes from offset 16 to
the old end of file are unchanged, and the file only grew. -/
theorem insert_ok_fields {genId file : List Nat} {emb : List PyFloat}
    {md : PyMetadata} {rid : Option (List Nat)} {f₁ : List Nat} {n d : Nat}
    (hh : get_header_info file = Except.ok (n, d))
    (hins : insert genId file emb md rid = (f₁, none)) :
    f₁.take 8 = file.take 8 ∧ (f₁.drop 8).take 8 = toLE 8 (n + 1) ∧
    (f₁.drop 16).take (file.length - 16) = file.drop 16 ∧
    file.length ≤ f₁.length := by
  obtain ⟨n', d', rec, hh', hlen, hlt, hshape⟩ := insert_ok_spec hins
  rw [hh] at hh'
  have hn : n' = n := by
    have hsy := hh'.symm
    simp only [Except.ok.injEq, Prod.mk.injEq] at hsy
    exact hsy.1
  rw [hn] at hshape
  have h20 := (get_header_info_ok_iff.mp hh).2.1
  have hA : (file.take 8).length = 8 := by
    simp only [List.length_take]
    omega
  have hAC : (file.take 8 ++ toLE 8 (n + 1)).length = 16 := by
    simp only [List.length_append, List.length_take, length_toLE]
    omega
  have hstep16 : f₁.drop 16 = file.drop 16 ++ rec := by
    rw [hshape, List.append_assoc (file.take 8 ++ toLE 8 (n + 1)),
      List.drop_left' hAC]
  refine ⟨?_, ?_, ?_, ?_⟩
  · rw [hshape, List.append_assoc, List.append_assoc, List.take_left' hA]
  · rw [hshape, List.append_assoc, List.append_assoc, List.drop_left' hA,
      List.take_left' (length_toLE 8 (n + 1))]
  · rw [hstep16, List.take_append_of_le_length
      (le_of_eq (List.length_drop 16 file).symm)]
    exact List.take_of_length_le (le_of_eq (List.length_drop 16 file))
  · rw [hshape]
    simp only [List.length_append, List.length_take, List.length_drop,
      length_toLE]
    omega

/-- A sample 16-byte identifier used for concrete runs. -/
def sampleId : List Nat := List.replicate 16 7

/-- The top-level names the `yavs` module defines (its imports, the four
format constants, and the three operations). -/
def yavsModuleNames : List String :=
  ["struct", "uuid", "MAGIC", "VERSION", "RESERVED_SIZE", "HEADER_SIZE",
    "create", "get_header_info", "insert"]

/-- The attribute of the `yavs` module the demonstration driver invokes to
append each record: `example.py` calls `yavs.append(fname, embedding,
text)` for both sample strings. -/
def driverAppendCall : String := "append"

/-- C1: the claim fails on the code.  Inserting the one-character text
`"é"` (UTF-8: two bytes) into a store of dimension 0 succeeds and stores
the UTF-8 payload, but the 4-byte length field holds `len("é") = 1`, the
character count, not the 2-byte length of the stored payload: the record
at offset 36 is 16 id bytes + 0 embedding bytes, so its length field is
bytes 52..56 and the payload is bytes 56..58. -/
theorem claim_C1_bug :
    (insert sampleId (create 0).1 [] (PyMetadata.text "é") none).2 =
      none ∧
    ((insert sampleId (create 0).1 [] (PyMetadata.text "é")
      none).1.drop 52).take 4 = toLE 4 1 ∧
    (insert sampleId (create 0).1 [] (PyMetadata.text "é")
      none).1.drop 56 = utf8Bytes "é" ∧
    (utf8Bytes "é").length = 2 ∧ fromLE (toLE 4 1) ≠ 2 := by
  decide

/-- C2: the claim fails on the code.  The demonstration driver appends
records by calling `yavs.append`, but the `yavs` module defines no
`append` attribute (its operations are `create`, `get_header_info` and
`insert`), so the call raises `AttributeError` instead of invoking the
insert operation. -/
theorem claim_C2_bug :
    driverAppendCall ∉ yavsModuleNames ∧ driverAppendCall ≠ "insert" := by
  decide

/-- C3 (counterexample): at `dim = -1` the create call does not succeed —
`struct.pack("<I", -1)` raises, leaving a truncated 16-byte file. -/
theorem claim_C3_counterexample :
    create (-1) = (MAGIC ++ toLE 4 VERSION ++ toLE 8 0,
      some PyError.createPackError) := by
  decide

/-- C3 (amended): `create` performs no validation of the dimension: every
`dim` in `[0, 2^32)`, zero included, is accepted and written as given into
the header's 4-byte little-endian dimension field; for `dim` outside that
range the `struct.pack` of the field itself raises, so the call fails. -/
theorem claim_C3_amended (dim : Int) (h0 : 0 ≤ dim) (h1 : dim < 2 ^ 32) :
    (create dim).2 = none ∧
    ((create dim).1.drop 16).take 4 = toLE 4 dim.toNat := by
  rw [create_ok h0 h1]
  exact ⟨rfl, rfl⟩

theorem claim_C3_witness :
    (create 0).2 = none ∧
    ((create 0).1.drop 16).take 4 = toLE 4 (0 : Int).toNat :=
  claim_C3_amended 0 (by norm_num) (by norm_num)

/-- C4 (counterexample): at the positive dimension `d = 2^32` the claim
fails — `create` itself raises while packing the dimension field, and
reading the header of the truncated file it leaves behind fails too, so
the pair `(0, 2^32)` is never returned. -/
theorem claim_C4_counterexample :
    (create (Int.ofNat 4294967296)).2 = some PyError.createPackError ∧
    get_header_info (create (Int.ofNat 4294967296)).1 ≠
      Except.ok (0, 4294967296) := by
  refine ⟨rfl, ?_⟩
  intro hcon
  rw [show get_header_info (create (Int.ofNat 4294967296)).1 =
    Except.error PyError.headerStructError from rfl] at hcon
  exact Except.noConfusion hcon

/-- C4 (amended): for every positive dimension `d < 2^32`, `create(path,
d)` succeeds and a subsequent `get_header_info(path)` returns `(0, d)`. -/
theorem claim_C4_amended (d : Int) (hpos : 0 < d) (hlt : d < 2 ^ 32) :
    (create d).2 = none ∧
    get_header_info (create d).1 = Except.ok (0, d.toNat) := by
  refine ⟨?_, get_header_info_create (le_of_lt hpos) hlt⟩
  rw [create_ok (le_of_lt hpos) hlt]

theorem claim_C4_witness :
    (create 384).2 = none ∧
    get_header_info (create 384).1 = Except.ok (0, (384 : Int).toNat) :=
  claim_C4_amended 384 (by norm_num) (by norm_num)

/-- C5: `get_header_info` on a file whose first 4 bytes are not the magic
fails with the invalid-format error; on a file with correct magic whose
4-byte version field decodes to a value other than 1 it fails with the
version-mismatch error carrying both the expected version (1) and the
found value. -/
theorem claim_C5 (file : List Nat) :
    (file.take 4 ≠ MAGIC →
      get_header_info file = Except.error PyError.invalidFormat) ∧
    (∀ v, file.take 4 = MAGIC →
      unpackU32 ((file.drop 4).take 4) = some v → v ≠ VERSION →
      get_header_info file =
        Except.error (PyError.versionMismatch VERSION v)) := by
  constructor
  · intro hm
    simp [get_header_info, hm]
  · intro v hm hv hne
    simp [get_header_info, hm, hv, hne]

theorem claim_C5_witness :
    get_header_info [0, 0, 0, 0] = Except.error PyError.invalidFormat ∧
    get_header_info (MAGIC ++ [2, 0, 0, 0]) =
      Except.error (PyError.versionMismatch VERSION 2) :=
  ⟨(claim_C5 [0, 0, 0, 0]).1 (by decide),
   (claim_C5 (MAGIC ++ [2, 0, 0, 0])).2 2 (by decide) (by decide)
     (by decide)⟩

/-- C6: for every N and every sequence of N successful insert calls
against a freshly created store, a subsequent `get_header_info` reports a
record count equal to N (the dimension staying what was created). -/
theorem claim_C6 (d : Int) (args : List InsertArgs) (f₂ : List Nat)
    (hcr : (create d).2 = none)
    (hrun : runInserts (create d).1 args = some f₂) :
    get_header_info f₂ = Except.ok (args.length, d.toNat) := by
  obtain ⟨h0, h32⟩ := create_ok_inv hcr
  have h1 : d < 2 ^ 32 := by
    norm_num at h32 ⊢
    omega
  have hh := get_header_info_create h0 h1
  have hres := runInserts_header args (create d).1 f₂ 0 d.toNat hh hrun
  simpa using hres

theorem claim_C6_witness :
    get_header_info
      ((insert sampleId (create 0).1 [] (PyMetadata.bytes []) none).1) =
      Except.ok (1, (0 : Int).toNat) :=
  claim_C6 0 [⟨sampleId, [], PyMetadata.bytes [], none⟩]
    ((insert sampleId (create 0).1 [] (PyMetadata.bytes []) none).1)
    (by decide) (by rfl)

/-- C7: an insert whose embedding length differs from the store's declared
dimension fails with the dimension-mismatch error carrying the expected
and the given lengths, and returns the file unchanged (so record count and
file size are unchanged). -/
theorem claim_C7 (genId file : List Nat) (emb : List PyFloat)
    (md : PyMetadata) (rid : Option (List Nat)) (n d : Nat)
    (hh : get_header_info file = Except.ok (n, d))
    (hne : emb.length ≠ d) :
    insert genId file emb md rid =
      (file, some (PyError.dimensionMismatch d emb.length)) := by
  simp [insert, hh, hne]

theorem claim_C7_witness :
    insert sampleId (create 3).1 [] (PyMetadata.bytes []) none =
      ((create 3).1, some (PyError.dimensionMismatch 3 0)) :=
  claim_C7 sampleId (create 3).1 [] (PyMetadata.bytes []) none 0 3
    (by rfl) (by decide)

/-- C8: an insert with an explicit record id whose length is not 16 bytes
fails with the invalid-argument error and leaves the file unchanged; an
insert with the record id absent (and otherwise able to complete) succeeds
and the first 16 bytes of the appended record are the generated 16-byte
identifier. -/
theorem claim_C8 (genId file : List Nat) (emb : List PyFloat)
    (md : PyMetadata) (n d : Nat)
    (hh : get_header_info file = Except.ok (n, d))
    (hdim : emb.length = d) :
    (∀ rid, rid.length ≠ 16 →
      insert genId file emb md (some rid) =
        (file, some PyError.invalidRecordId)) ∧
    (genId.length = 16 → ∀ eb, packEmbedding emb = some eb →
      md.len < 2 ^ 32 → n + 1 < 2 ^ 64 →
      (insert genId file emb md none).2 = none ∧
      ((insert genId file emb md none).1.drop file.length).take 16 =
        genId) := by
  have h20 := (get_header_info_ok_iff.mp hh).2.1
  constructor
  · intro rid hlen
    simp [insert, hh, hdim, hlen]
  · intro hg eb hpe hml hlt
    have hgd : ((none : Option (List Nat)).getD genId).length = 16 := hg
    rw [insert_ok_eq hh hdim hgd hpe hml hlt]
    refine ⟨rfl, ?_⟩
    have hpre :
        (file.take 8 ++ toLE 8 (n + 1) ++ file.drop 16).length =
          file.length := by
      simp only [List.length_append, List.length_take, List.length_drop,
        length_toLE]
      omega
    rw [List.drop_left' hpre]
    show (genId ++ eb ++ toLE 4 md.len ++ md.writtenBytes).take 16 = genId
    rw [List.append_assoc, List.append_assoc, List.take_left' hg]

theorem claim_C8_witness :
    (insert sampleId (create 0).1 [] (PyMetadata.bytes [])
      (some [1, 2, 3]) = ((create 0).1, some PyError.invalidRecordId)) ∧
    ((insert sampleId (create 0).1 [] (PyMetadata.bytes []) none).2 =
      none ∧
     ((insert sampleId (create 0).1 [] (PyMetadata.bytes [])
       none).1.drop (create 0).1.length).take 16 = sampleId) :=
  ⟨(claim_C8 sampleId (create 0).1 [] (PyMetadata.bytes []) 0 0
      (by rfl) (by decide)).1 [1, 2, 3] (by decide),
   (claim_C8 sampleId (create 0).1 [] (PyMetadata.bytes []) 0 0
      (by rfl) (by decide)).2 (by decide) [] (by decide) (by decide)
      (by decide)⟩

/-- C9: a successful insert only overwrites the count field at offset 8
(with the previous count plus one) and appends at end of file — the first
8 bytes (magic, version) and every byte from offset 16 to the old end
(dimension, reserved bytes, previous records) are unchanged; consequently
after `create`, no sequence of inserts (and of reads, which are pure) ever
changes the magic, version, dimension, or reserved fields. -/
theorem claim_C9 :
    (∀ (genId file : List Nat) (emb : List PyFloat) (md : PyMetadata)
      (rid : Option (List Nat)) (f₁ : List Nat) (n d : Nat),
      get_header_info file = Except.ok (n, d) →
      insert genId file emb md rid = (f₁, none) →
      f₁.take 8 = file.take 8 ∧ (f₁.drop 8).take 8 = toLE 8 (n + 1) ∧
      (f₁.drop 16).take (file.length - 16) = file.drop 16 ∧
      file.length ≤ f₁.length) ∧
    (∀ (dI : Int) (args : List InsertArgs) (f₂ : List Nat),
      (create dI).2 = none → runInserts (create dI).1 args = some f₂ →
      f₂.take 8 = MAGIC ++ toLE 4 VERSION ∧
      (f₂.drop 16).take 20 =
        toLE 4 dI.toNat ++ List.replicate RESERVED_SIZE 0) := by
  constructor
  · intro genId file emb md rid f₁ n d hh hins
    exact insert_ok_fields hh hins
  · intro dI args f₂ hcr hrun
    obtain ⟨h0, h32⟩ := create_ok_inv hcr
    have h1 : dI < 2 ^ 32 := by
      norm_num at h32 ⊢
      omega
    have hlen36 : (create dI).1.length = 36 := by
      rw [create_ok h0 h1]
      simp [MAGIC, RESERVED_SIZE, length_toLE]
    obtain ⟨h8, h16, hmono⟩ :=
      runInserts_preserves args (create dI).1 f₂ (by omega) hrun
    constructor
    · rw [h8, create_ok h0 h1]
      rfl
    · rw [show (create dI).1.length - 16 = 20 from by omega] at h16
      rw [h16, create_ok h0 h1]
      rfl

theorem claim_C9_witness :
    ((insert sampleId (create 0).1 [] (PyMetadata.bytes []) none).1.take 8 =
      (create 0).1.take 8 ∧
     (((insert sampleId (create 0).1 [] (PyMetadata.bytes [])
       none).1.drop 8)).take 8 = toLE 8 1 ∧
     ((insert sampleId (create 0).1 [] (PyMetadata.bytes [])
       none).1.drop 16).take ((create 0).1.length - 16) =
       (create 0).1.drop 16 ∧
     (create 0).1.length ≤
       (insert sampleId (create 0).1 [] (PyMetadata.bytes []) none).1.length) ∧
    ((create 0).1.take 8 = MAGIC ++ toLE 4 VERSION ∧
     ((create 0).1.drop 16).take 20 =
       toLE 4 (0 : Int).toNat ++ List.replicate RESERVED_SIZE 0) :=
  ⟨claim_C9.1 sampleId (create 0).1 [] (PyMetadata.bytes []) none _ 0 0
      (by rfl) (by rfl),
   claim_C9.2 0 [] (create 0).1 (by decide) (by rfl)⟩

/-- C10: whenever insert fails with a dimension mismatch, an invalid
record-id length, or a failure to pack the embedding, the file is
byte-for-byte unchanged, because those checks and the embedding packing
all happen before the file is opened for writing. -/
theorem claim_C10 (genId file : List Nat) (emb : List PyFloat)
    (md : PyMetadata) (rid : Option (List Nat)) (f₁ : List Nat)
    (e : PyError)
    (hins : insert genId file emb md rid = (f₁, some e))
    (hkind : (∃ a b, e = PyError.dimensionMismatch a b) ∨
      e = PyError.invalidRecordId ∨ e = PyError.embeddingPackError) :
    f₁ = file := by
  cases hhdr : get_header_info file with
  | error e0 =>
    simp only [insert, hhdr, Prod.mk.injEq] at hins
    exact hins.1.symm
  | ok p =>
    obtain ⟨n, d⟩ := p
    by_cases hdim : emb.length = d
    case neg =>
      simp only [insert, hhdr, if_pos hdim, Prod.mk.injEq] at hins
      exact hins.1.symm
    case pos =>
    by_cases hr : (rid.getD genId).length = 16
    case neg =>
      simp [insert, hhdr, hdim, hr, Prod.mk.injEq] at hins
      exact hins.1.symm
    case pos =>
    cases hpe : packEmbedding emb with
    | none =>
      simp [insert, hhdr, hdim, hr, hpe, Prod.mk.injEq] at hins
      exact hins.1.symm
    | some eb =>
      cases hml : packU32 ((md.len : Int)) with
      | none =>
        simp [insert, hhdr, hdim, hr, hpe, hml, Prod.mk.injEq] at hins
        rw [← hins.2] at hkind
        simp at hkind
      | some lb =>
        cases hcnt : packU64 ((n : Int) + 1) with
        | none =>
          simp [insert, hhdr, hdim, hr, hpe, hml, hcnt,
            Prod.mk.injEq] at hins
          rw [← hins.2] at hkind
          simp at hkind
        | some cb =>
          simp [insert, hhdr, hdim, hr, hpe, hml, hcnt,
            Prod.mk.injEq] at hins

theorem claim_C10_witness :
    (insert sampleId (create 3).1 [] (PyMetadata.bytes []) none).1 =
      (create 3).1 :=
  claim_C10 sampleId (create 3).1 [] (PyMetadata.bytes []) none
    ((insert sampleId (create 3).1 [] (PyMetadata.bytes []) none).1)
    (PyError.dimensionMismatch 3 0) (by decide) (Or.inl ⟨3, 0, rfl⟩)

end Yavs
